import Mathlib

/-!
Shallow embedding of the photoluminescence spectrum analysis engine.

Numbers: the TypeScript sources compute over IEEE doubles; the embedding uses
exact rationals (`ℚ`). `Math.sqrt` and `Math.exp` do not stay inside `ℚ`, so
functions whose *result* depends on them take the modelled function
(`msqrt` / `mexp`) as an explicit argument, and a comparison against a square
root is embedded by its exact algebraic equivalent (documented at the
definition).

Two near-duplicate scientific modules exist in the repository:
* the module embedded at the top level of namespace `PL` is the one the spec
  was written from (the second file of `src/unnamed/part_002`);
* namespace `PL.Alt` embeds the points where `src/src/utils/scientific.ts`
  differs from it.  The helper functions `calculateFWHM`, `calculatePeakArea`
  and `trapezoidalIntegration` are textually identical in the two files and
  are therefore shared.
-/

attribute [local semireducible] Rat.add Rat.mul Rat.inv Rat.sub

namespace PL

/-- Structure `SpectralDataPoint` from `types/spectrum`: one (wavelength, intensity) sample. -/
structure SpectralDataPoint where
  wavelength : ℚ
  intensity : ℚ
deriving DecidableEq

/-- Structure `Peak` from `types/spectrum`: descriptor produced by the peak detector. -/
structure Peak where
  position : ℚ
  amplitude : ℚ
  fwhm : ℚ
  area : ℚ
  prominence : ℚ
deriving DecidableEq

/-- Structure `Statistics`, the record returned by `calculateStatistics`. -/
structure Statistics where
  mean_intensity : ℚ
  std_intensity : ℚ
  max_intensity : ℚ
  min_intensity : ℚ
  total_area : ℚ
deriving DecidableEq

/-- Placeholder for out-of-bounds array reads; every read in the embedding is
guarded in-bounds exactly where the source's loop bounds guarantee it. -/
def dfltPoint : SpectralDataPoint := ⟨0, 0⟩

/-- Array read `data[i].intensity`. -/
def intensityAt (data : List SpectralDataPoint) (i : ℕ) : ℚ :=
  (data.getD i dfltPoint).intensity

/-- Array read `data[i].wavelength`. -/
def wavelengthAt (data : List SpectralDataPoint) (i : ℕ) : ℚ :=
  (data.getD i dfltPoint).wavelength

/-- Models `Math.max(...xs)` over a non-empty spread (the sources only call it on
non-empty arrays; the `[]` branch is never reached under those guards). -/
def listMax : List ℚ → ℚ
  | [] => 0
  | x :: xs => xs.foldl max x

/-- Models `Math.min(...xs)` over a non-empty spread. -/
def listMin : List ℚ → ℚ
  | [] => 0
  | x :: xs => xs.foldl min x

/-- Function `trapezoidalIntegration` (textually identical in both scientific modules):
sum over adjacent pairs of `dx * avgY`. -/
def trapezoidalIntegration : List SpectralDataPoint → ℚ
  | [] => 0
  | [_] => 0
  | a :: b :: rest =>
      (b.wavelength - a.wavelength) * ((b.intensity + a.intensity) / 2) +
        trapezoidalIntegration (b :: rest)

/-- The left half-maximum walk of `calculateFWHM`:
`while (leftIdx > 0 && data[leftIdx].intensity > halfMax) leftIdx--`. -/
def walkLeft (data : List SpectralDataPoint) (halfMax : ℚ) : ℕ → ℕ
  | 0 => 0
  | i + 1 => if halfMax < intensityAt data (i + 1) then walkLeft data halfMax i else i + 1

/-- Fuel-indexed right half-maximum walk (structural recursion so that the
kernel can evaluate it).  While `fuel = data.length - i`, the fuel can run out
only once `i ≥ data.length`, where the loop condition is false anyway, so with
that fuel this computes the source's `while` loop exactly (see `walkRight`). -/
def walkRightAux (data : List SpectralDataPoint) (halfMax : ℚ) : ℕ → ℕ → ℕ
  | 0, i => i
  | fuel + 1, i =>
      if i < data.length - 1 ∧ halfMax < intensityAt data i then
        walkRightAux data halfMax fuel (i + 1)
      else i

/-- The right half-maximum walk of `calculateFWHM`:
`while (rightIdx < data.length - 1 && data[rightIdx].intensity > halfMax) rightIdx++`. -/
def walkRight (data : List SpectralDataPoint) (halfMax : ℚ) (i : ℕ) : ℕ :=
  walkRightAux data halfMax (data.length - i) i

/-- Function `calculateFWHM` (textually identical in both scientific modules). -/
def calculateFWHM (data : List SpectralDataPoint) (peakIndex : ℕ) : ℚ :=
  let halfMax := intensityAt data peakIndex / 2
  wavelengthAt data (walkRight data halfMax peakIndex) -
    wavelengthAt data (walkLeft data halfMax peakIndex)

/-- Function `calculatePeakArea` (textually identical in both scientific modules). -/
def calculatePeakArea (data : List SpectralDataPoint) (peakIndex : ℕ) (fwhm : ℚ) : ℚ :=
  let c := wavelengthAt data peakIndex
  trapezoidalIntegration
    (data.filter fun d => decide (c - fwhm ≤ d.wavelength ∧ d.wavelength ≤ c + fwhm))

/-- The `Peak` record pushed by `detectPeaks` for a candidate index `i`
(identical construction in both scientific modules). -/
def mkPeak (data : List SpectralDataPoint) (i : ℕ) : Peak :=
  let fwhm := calculateFWHM data i
  { position := wavelengthAt data i
    amplitude := intensityAt data i
    fwhm := fwhm
    area := calculatePeakArea data i fwhm
    prominence := intensityAt data i - min (intensityAt data (i - 1)) (intensityAt data (i + 1)) }

/-- The interior indices scanned by `detectPeaks`:
`for (let i = 1; i < data.length - 1; i++)`. -/
def interiorIndices (n : ℕ) : List ℕ :=
  (List.range n).filter fun i => decide (1 ≤ i ∧ i + 1 < n)

/-- The local-maximum test of `detectPeaks` in `part_002`:
`curr > prev && curr > next && curr >= minHeight`. -/
def isCandidate (data : List SpectralDataPoint) (minHeight : ℚ) (i : ℕ) : Bool :=
  decide (intensityAt data (i - 1) < intensityAt data i ∧
    intensityAt data (i + 1) < intensityAt data i ∧
    minHeight ≤ intensityAt data i)

/-- Function `detectPeaks` from `part_002`: scan interior local maxima meeting
`minHeight`, build each `Peak`, then filter by `prominence >= threshold`. -/
def detectPeaks (data : List SpectralDataPoint) (prominence minHeight : ℚ) : List Peak :=
  ((((interiorIndices data.length).filter (isCandidate data minHeight)).map
      (mkPeak data)).filter fun p => decide (prominence ≤ p.prominence))

/-- Enumeration `'max' | 'area'` of normalization methods. -/
inductive NormMethod
  | max
  | area
deriving DecidableEq

/-- Function `normalizeSpectrum` from `part_002`, with its empty-spectrum and
division-by-zero guards. -/
def normalizeSpectrum (data : List SpectralDataPoint) (method : NormMethod) :
    List SpectralDataPoint :=
  if data.length = 0 then data
  else
    match method with
    | NormMethod.max =>
        let maxIntensity := listMax (data.map (·.intensity))
        if maxIntensity = 0 then data
        else data.map fun d => ⟨d.wavelength, d.intensity / maxIntensity⟩
    | NormMethod.area =>
        let area := trapezoidalIntegration data
        if area = 0 then data
        else data.map fun d => ⟨d.wavelength, d.intensity / area⟩

/-- Population mean of the intensities, `reduce((a,b) => a+b, 0) / length`
(shared by `removeOutliers` and `calculateStatistics`, which inline the same
computation). -/
def meanIntensity (data : List SpectralDataPoint) : ℚ :=
  (data.map (·.intensity)).sum / data.length

/-- Population variance of the intensities (the sources compute
`std = Math.sqrt` of this; the variance itself stays in `ℚ`). -/
def varianceIntensity (data : List SpectralDataPoint) : ℚ :=
  ((data.map (·.intensity)).map fun v => (v - meanIntensity data) ^ 2).sum / data.length

/-- Function `removeOutliers` from `part_002`.  `Math.sqrt` leaves `ℚ`, so the two
places the source uses `std = Math.sqrt(variance)` are embedded by their exact
algebraic equivalents: the guard `std === 0` is `variance = 0`, and for
`variance > 0` the kept-point test `|intensity - mean| ≤ threshold * std` is
`0 ≤ threshold ∧ (intensity - mean)² ≤ threshold² * variance` (the theorem
`removeOutliers_spec` proves this equivalence against `Real.sqrt`). -/
def removeOutliers (data : List SpectralDataPoint) (threshold : ℚ) :
    List SpectralDataPoint :=
  if data.length = 0 then data
  else if varianceIntensity data = 0 then data
  else
    data.filter fun d =>
      decide (0 ≤ threshold ∧
        (d.intensity - meanIntensity data) ^ 2 ≤ threshold ^ 2 * varianceIntensity data)

/-- Function `savitzkyGolayFilter` from `part_002`: window length forced odd, then a
centered moving average with truncated windows at the boundaries; the
polynomial order argument is accepted but unused.  The inner loop over
`j ∈ [-halfWindow, halfWindow]` with `0 ≤ i+j < length` visits exactly the
indices `k < length` with `i ≤ k + halfWindow ∧ k ≤ i + halfWindow`. -/
def savitzkyGolayFilter (data : List SpectralDataPoint) (windowLength : ℕ)
    (_polynomialOrder : ℕ) : List SpectralDataPoint :=
  let wl := if windowLength % 2 = 0 then windowLength + 1 else windowLength
  let halfWindow := wl / 2
  (List.range data.length).map fun i =>
    let window := ((List.range data.length).filter fun k =>
      decide (i ≤ k + halfWindow ∧ k ≤ i + halfWindow)).map (intensityAt data)
    ⟨wavelengthAt data i, window.sum / window.length⟩

/-- Matrix read `A[i][j]` for the list-of-rows matrix used by `gaussianElimination`. -/
def getij (A : List (List ℚ)) (i j : ℕ) : ℚ := (A.getD i []).getD j 0

/-- Vector read `B[i]` for the vectors used by `gaussianElimination`. -/
def getv (B : List ℚ) (i : ℕ) : ℚ := B.getD i 0

/-- Matrix `A` with `A[i][j]` replaced by `v`. -/
def setij (A : List (List ℚ)) (i j : ℕ) (v : ℚ) : List (List ℚ) :=
  A.set i ((A.getD i []).set j v)

/-- Pivot selection of `gaussianElimination`: starting from `maxRow = i`,
scan `k = i+1 .. n-1` and take `k` whenever `|A[k][i]| > |A[maxRow][i]|`
(the source's running `maxEl` always equals `|A[maxRow][i]|`). -/
def pivotRow (A : List (List ℚ)) (i n : ℕ) : ℕ :=
  (List.range n).foldl
    (fun maxRow k => if i + 1 ≤ k ∧ |getij A k i| > |getij A maxRow i| then k else maxRow) i

/-- Row swap of `gaussianElimination`: swap `A[maxRow][k]` and `A[i][k]` for
`k = i .. n-1` (columns before `i` are not swapped in the source). -/
def swapRowsFrom (A : List (List ℚ)) (i maxRow n : ℕ) : List (List ℚ) :=
  (List.range n).foldl
    (fun M k =>
      if i ≤ k then
        let tmp := getij M maxRow k
        setij (setij M maxRow k (getij M i k)) i k tmp
      else M) A

/-- Elimination of row `k` below pivot row `i`:
`for j = i .. n-1: A[k][j] = (i == j) ? 0 : A[k][j] + c*A[i][j]`. -/
def elimRow (A : List (List ℚ)) (i k n : ℕ) (c : ℚ) : List (List ℚ) :=
  (List.range n).foldl
    (fun M j =>
      if i ≤ j then
        if i = j then setij M k j 0
        else setij M k j (getij M k j + c * getij M i j)
      else M) A

/-- One iteration of the forward-elimination loop of `gaussianElimination`
(pivot search, partial row swap of `A` and swap of `B`, then elimination of
every row below `i`). -/
def forwardStep (n : ℕ) (st : List (List ℚ) × List ℚ) (i : ℕ) :
    List (List ℚ) × List ℚ :=
  let maxRow := pivotRow st.1 i n
  let A := swapRowsFrom st.1 i maxRow n
  let B := let tmp := getv st.2 maxRow
           (st.2.set maxRow (getv st.2 i)).set i tmp
  (List.range n).foldl
    (fun st k =>
      if i + 1 ≤ k then
        let c := -getij st.1 k i / getij st.1 i i
        (elimRow st.1 i k n c, st.2.set k (getv st.2 k + c * getv st.2 i))
      else st) (A, B)

/-- Back substitution of `gaussianElimination`:
`x[i] = (B[i] - Σ_{j>i} A[i][j]*x[j]) / A[i][i]` for `i = n-1 .. 0`. -/
def backSubstitute (A : List (List ℚ)) (B : List ℚ) (n : ℕ) : List ℚ :=
  (List.range n).reverse.foldl
    (fun x i =>
      let s := ((List.range n).filter fun j => decide (i + 1 ≤ j)).foldl
        (fun acc j => acc + getij A i j * getv x j) 0
      x.set i ((getv B i - s) / getij A i i)) (List.replicate n 0)

/-- Function `gaussianElimination` from `part_002`: forward elimination with partial
pivoting followed by back substitution. -/
def gaussianElimination (A : List (List ℚ)) (B : List ℚ) : List ℚ :=
  let n := B.length
  let st := (List.range n).foldl (forwardStep n) (A, B)
  backSubstitute st.1 st.2 n

/-- Function `polyfit` from `part_002`: build the normal equations
`A[r][c] = Σ x_i^(r+c)`, `B[r] = Σ y_i * x_i^r` and solve them by Gaussian
elimination. -/
def polyfit (x y : List ℚ) (degree : ℕ) : List ℚ :=
  let n := x.length
  let k := degree + 1
  let A := (List.range k).map fun r =>
    (List.range k).map fun c => ((List.range n).map fun i => x.getD i 0 ^ (r + c)).sum
  let B := (List.range k).map fun r =>
    ((List.range n).map fun i => y.getD i 0 * x.getD i 0 ^ r).sum
  gaussianElimination A B

/-- Function `polynomialBaselineCorrection` from `part_002`: fit a polynomial over the
point *indices*, evaluate it as the baseline, subtract, and clamp at 0. -/
def polynomialBaselineCorrection (data : List SpectralDataPoint) (degree : ℕ) :
    List SpectralDataPoint :=
  if data.length = 0 then data
  else
    let x := (List.range data.length).map fun i => (i : ℚ)
    let y := data.map (·.intensity)
    let coeffs := polyfit x y degree
    let baseline := x.map fun xi =>
      ((List.range coeffs.length).map fun i => coeffs.getD i 0 * xi ^ i).sum
    (List.range data.length).map fun i =>
      ⟨wavelengthAt data i, max 0 (intensityAt data i - baseline.getD i 0)⟩

/-- Enumeration `'polynomial' | 'als'` of baseline methods. -/
inductive BaselineMethod
  | polynomial
  | als
deriving DecidableEq

/-- Sub-config `outlier_removal`. -/
structure OutlierRemovalConfig where
  enabled : Bool
  threshold : ℚ
deriving DecidableEq

/-- Sub-config `noise_reduction` (`polynomial_order` is carried but unused). -/
structure NoiseReductionConfig where
  window_length : ℕ
  polynomial_order : ℕ
deriving DecidableEq

/-- Sub-config `baseline_correction`; `polynomial_degree` is optional. -/
structure BaselineConfig where
  method : BaselineMethod
  polynomial_degree : Option ℕ
deriving DecidableEq

/-- Sub-config `normalization`. -/
structure NormalizationConfig where
  method : NormMethod
deriving DecidableEq

/-- Structure `PreprocessingParams`: the four optional, independently toggled
sub-configs. -/
structure PreprocessingParams where
  outlier_removal : Option OutlierRemovalConfig
  noise_reduction : Option NoiseReductionConfig
  baseline_correction : Option BaselineConfig
  normalization : Option NormalizationConfig
deriving DecidableEq

/-- JavaScript `v || dflt` on an optional number: `undefined` and `0` are both
falsy, so both select the default. -/
def jsOrNat (v : Option ℕ) (dflt : ℕ) : ℕ :=
  match v with
  | none => dflt
  | some d => if d = 0 then dflt else d

/-- Function `preprocessSpectrum` from `part_002`: outlier removal (when present and
enabled), then noise reduction, then baseline correction (only the
`polynomial` method does anything), then normalization, each stage consuming
the previous stage's output. -/
def preprocessSpectrum (data : List SpectralDataPoint) (params : PreprocessingParams) :
    List SpectralDataPoint :=
  let processed := data
  let processed :=
    match params.outlier_removal with
    | some cfg => if cfg.enabled then removeOutliers processed cfg.threshold else processed
    | none => processed
  let processed :=
    match params.noise_reduction with
    | some cfg => savitzkyGolayFilter processed cfg.window_length cfg.polynomial_order
    | none => processed
  let processed :=
    match params.baseline_correction with
    | some cfg =>
        match cfg.method with
        | BaselineMethod.polynomial =>
            polynomialBaselineCorrection processed (jsOrNat cfg.polynomial_degree 2)
        | BaselineMethod.als => processed
    | none => processed
  let processed :=
    match params.normalization with
    | some cfg => normalizeSpectrum processed cfg.method
    | none => processed
  processed

/-- Function `calculateRSquared` from `part_002`, with its empty-input and
`ssTotal === 0` guards. -/
def calculateRSquared (observed predicted : List ℚ) : ℚ :=
  if observed.length = 0 then 0
  else
    let mean := observed.sum / observed.length
    let ssTotal := (observed.map fun v => (v - mean) ^ 2).sum
    let ssResidual :=
      ((List.range observed.length).map fun i => (observed.getD i 0 - predicted.getD i 0) ^ 2).sum
    if ssTotal = 0 then 0 else 1 - ssResidual / ssTotal

/-- Function `calculateRMSE` from `part_002`.  `msqrt` models `Math.sqrt`, which leaves
`ℚ`; every claim about this function only needs `msqrt 0 = 0`. -/
def calculateRMSE (msqrt : ℚ → ℚ) (observed predicted : List ℚ) : ℚ :=
  if observed.length = 0 then 0
  else
    msqrt
      (((List.range observed.length).map fun i =>
        (observed.getD i 0 - predicted.getD i 0) ^ 2).sum / observed.length)

/-- Function `calculateStatistics` from `part_002`: all-zero record for an empty
spectrum, otherwise mean / `msqrt` of the population variance / max / min /
trapezoidal area (`msqrt` models `Math.sqrt`). -/
def calculateStatistics (msqrt : ℚ → ℚ) (data : List SpectralDataPoint) : Statistics :=
  if data.length = 0 then ⟨0, 0, 0, 0, 0⟩
  else
    { mean_intensity := meanIntensity data
      std_intensity := msqrt (varianceIntensity data)
      max_intensity := listMax (data.map (·.intensity))
      min_intensity := listMin (data.map (·.intensity))
      total_area := trapezoidalIntegration data }

/-- Function `gaussian` from `part_002`, including its `width === 0` guard (`mexp`
models `Math.exp`, which leaves `ℚ`; the guard branch never evaluates it). -/
def gaussian (mexp : ℚ → ℚ) (x amplitude center width : ℚ) : ℚ :=
  if width = 0 then 0
  else amplitude * mexp (-((x - center) ^ 2) / (2 * width ^ 2))

/-- Function `lorentzian` from `part_002`, including its `width === 0` guard. -/
def lorentzian (x amplitude center width : ℚ) : ℚ :=
  if width = 0 then 0
  else amplitude / (1 + ((x - center) / width) ^ 2)

/-- Function `fitGaussian` from `part_002`: at every input wavelength, sum the
Gaussian contributions of all peaks with `sigma = fwhm / 2.355`. -/
def fitGaussian (mexp : ℚ → ℚ) (data : List SpectralDataPoint) (peaks : List Peak) :
    List SpectralDataPoint :=
  data.map fun point =>
    ⟨point.wavelength,
      (peaks.map fun peak =>
        gaussian mexp point.wavelength peak.amplitude peak.position
          (peak.fwhm / (2355 / 1000))).sum⟩

/-- Function `fitLorentzian` from `part_002`: superposed Lorentzians with
`halfWidth = fwhm / 2`. -/
def fitLorentzian (data : List SpectralDataPoint) (peaks : List Peak) :
    List SpectralDataPoint :=
  data.map fun point =>
    ⟨point.wavelength,
      (peaks.map fun peak =>
        lorentzian point.wavelength peak.amplitude peak.position (peak.fwhm / 2)).sum⟩

/-- Enumeration `'gaussian' | 'lorentzian' | 'voigt'` of fitting models. -/
inductive FitModel
  | gaussian
  | lorentzian
  | voigt
deriving DecidableEq

/-- The model dispatch of `handleAnalyze` (`src/unnamed/part_001`, the
analysis page): `gaussian → fitGaussian`, `lorentzian → fitLorentzian`, and
the final `else` branch — reached by `voigt` — also calls `fitGaussian`. -/
def fitCurve (mexp : ℚ → ℚ) (model : FitModel) (data : List SpectralDataPoint)
    (peaks : List Peak) : List SpectralDataPoint :=
  match model with
  | FitModel.gaussian => fitGaussian mexp data peaks
  | FitModel.lorentzian => fitLorentzian data peaks
  | FitModel.voigt => fitGaussian mexp data peaks

namespace Alt

/-- The local-maximum test of `detectPeaks` in `src/src/utils/scientific.ts`:
`curr > prev && curr > next && curr > minHeight` — strict on `minHeight`,
unlike the `curr >= minHeight` of `part_002`. -/
def isCandidate (data : List SpectralDataPoint) (minHeight : ℚ) (i : ℕ) : Bool :=
  decide (intensityAt data (i - 1) < intensityAt data i ∧
    intensityAt data (i + 1) < intensityAt data i ∧
    minHeight < intensityAt data i)

/-- Function `detectPeaks` from `src/src/utils/scientific.ts`; apart from the strict
`minHeight` comparison it is textually identical to the `part_002` version
(same interior scan, same `calculateFWHM` / `calculatePeakArea` /
prominence construction, same prominence filter). -/
def detectPeaks (data : List SpectralDataPoint) (prominence minHeight : ℚ) : List Peak :=
  ((((interiorIndices data.length).filter (Alt.isCandidate data minHeight)).map
      (mkPeak data)).filter fun p => decide (prominence ≤ p.prominence))

/-- Function `polyfit` from `src/src/utils/scientific.ts`: despite building a design
matrix it never solves any system — it returns `degree + 1` coefficients that
are all `0` except `coeffs[0] = (Σ y) / x.length`. -/
def polyfit (x y : List ℚ) (degree : ℕ) : List ℚ :=
  (List.range (degree + 1)).map fun j => if j = 0 then y.sum / x.length else 0

end Alt

/-- The spectrum of the spec's end-to-end scenario:
`[(500,0.1),(502,0.3),(504,0.9),(506,0.3),(508,0.1)]`. -/
def demoSpectrum : List SpectralDataPoint :=
  [⟨500, 1/10⟩, ⟨502, 3/10⟩, ⟨504, 9/10⟩, ⟨506, 3/10⟩, ⟨508, 1/10⟩]

/-- Pipeline stage as the spec words it: outlier removal runs only when the
sub-config is present and enabled, otherwise the spectrum passes through. -/
def specOutlierStage (cfg : Option OutlierRemovalConfig) (data : List SpectralDataPoint) :
    List SpectralDataPoint :=
  match cfg with
  | some c => if c.enabled then removeOutliers data c.threshold else data
  | none => data

/-- Pipeline stage as the spec words it: noise reduction when configured,
pass-through otherwise. -/
def specNoiseStage (cfg : Option NoiseReductionConfig) (data : List SpectralDataPoint) :
    List SpectralDataPoint :=
  match cfg with
  | some c => savitzkyGolayFilter data c.window_length c.polynomial_order
  | none => data

/-- Pipeline stage as the spec words it: polynomial baseline correction when
configured with the `polynomial` method; the `als` method and an absent
sub-config both pass the spectrum through. -/
def specBaselineStage (cfg : Option BaselineConfig) (data : List SpectralDataPoint) :
    List SpectralDataPoint :=
  match cfg with
  | some c =>
      match c.method with
      | BaselineMethod.polynomial =>
          polynomialBaselineCorrection data (jsOrNat c.polynomial_degree 2)
      | BaselineMethod.als => data
  | none => data

/-- Pipeline stage as the spec words it: normalization when configured,
pass-through otherwise. -/
def specNormalizationStage (cfg : Option NormalizationConfig)
    (data : List SpectralDataPoint) : List SpectralDataPoint :=
  match cfg with
  | some c => normalizeSpectrum data c.method
  | none => data

/-- C1 counterexample: on the scenario spectrum with `min_height = 0.05` and
prominence threshold `0.1`, the single detected peak has `fwhm = 4`, not the
claimed `8`: the half-max walk stops at the *first* point at or below
half-max (wavelengths 502 and 506), it does not continue to 500 and 508. -/
theorem detectPeaks_demo_fwhm_not_8 :
    (detectPeaks demoSpectrum (1/10) (1/20)).map Peak.fwhm = [4] ∧
    (detectPeaks demoSpectrum (1/10) (1/20)).map Peak.fwhm ≠ [8] := by decide

/-- C1 (amended): on the scenario spectrum with `min_height = 0.05` and
prominence threshold `0.1`, `detectPeaks` returns exactly one peak, with
`position = 504`, `amplitude = 0.9`, `prominence = 0.6`, and `fwhm = 4` — the
half-max walk boundaries are at wavelengths 502 and 506 (its area is 3.2,
the trapezoidal integral over the window `[500, 508]`). -/
theorem detectPeaks_demo_scenario :
    detectPeaks demoSpectrum (1/10) (1/20) =
      [{ position := 504, amplitude := 9/10, fwhm := 4, area := 16/5, prominence := 3/5 }] := by
  decide

/-- C2: `preprocessSpectrum` is exactly the composition of the four stages in
the fixed order outlier removal → noise reduction → baseline correction →
normalization, each consuming the previous stage's output; an absent
sub-config (or, for outlier removal, `enabled = false`) passes the spectrum
through unchanged, and the `als` baseline method is a no-op (and, the
embedding being total, raises nothing). -/
theorem preprocess_fixed_order (data : List SpectralDataPoint)
    (params : PreprocessingParams) :
    preprocessSpectrum data params =
      specNormalizationStage params.normalization
        (specBaselineStage params.baseline_correction
          (specNoiseStage params.noise_reduction
            (specOutlierStage params.outlier_removal data))) ∧
    (∀ d, specOutlierStage none d = d) ∧
    (∀ t d, specOutlierStage (some ⟨false, t⟩) d = d) ∧
    (∀ d, specNoiseStage none d = d) ∧
    (∀ d, specBaselineStage none d = d) ∧
    (∀ d, specNormalizationStage none d = d) ∧
    (∀ deg d, specBaselineStage (some ⟨BaselineMethod.als, deg⟩) d = d) :=
  ⟨rfl, fun _ => rfl, fun _ _ => rfl, fun _ => rfl, fun _ => rfl, fun _ => rfl,
    fun _ _ => rfl⟩

/-- C3: `calculateStatistics` on the empty spectrum returns the all-zero
record (for any model of `Math.sqrt`), and `detectPeaks` returns the empty
sequence on the empty spectrum and on every spectrum with at most two points
(the embedding is total, so no exception can be raised). -/
theorem empty_and_tiny_inputs (msqrt : ℚ → ℚ) (pr mh : ℚ)
    (data : List SpectralDataPoint) (hsmall : data.length ≤ 2) :
    calculateStatistics msqrt [] = ⟨0, 0, 0, 0, 0⟩ ∧
    detectPeaks [] pr mh = [] ∧
    detectPeaks data pr mh = [] := by
  refine ⟨rfl, rfl, ?_⟩
  unfold detectPeaks
  have h : interiorIndices data.length = [] := by
    unfold interiorIndices
    refine List.filter_eq_nil_iff.mpr ?_
    intro a ha
    simp only [List.mem_range] at ha
    simp only [decide_eq_true_eq, not_and]
    omega
  rw [h]
  rfl

/-- C3 witness: the hypotheses are satisfiable — a concrete two-point
spectrum. -/
theorem empty_and_tiny_inputs_witness :
    calculateStatistics (fun q => q) [] = ⟨0, 0, 0, 0, 0⟩ ∧
    detectPeaks [] 1 1 = [] ∧
    detectPeaks [⟨0, 0⟩, ⟨1, 1⟩] 1 1 = [] :=
  empty_and_tiny_inputs (fun q => q) 1 1 [⟨0, 0⟩, ⟨1, 1⟩] (by decide)

/-- C4 counterexample: for the constant observed sequence `[1, 1]` with
predicted equal to it, `calculateRSquared` returns `0`, not the claimed
`1` — the `ssTotal === 0` guard fires. -/
theorem rsquared_constant_observed :
    calculateRSquared [1, 1] [1, 1] = 0 ∧ calculateRSquared [1, 1] [1, 1] ≠ 1 := by
  decide

/-- C4 (amended): for every non-empty observed sequence with predicted equal
to it element-for-element, `calculateRMSE` returns exactly `0` (for any model
of `Math.sqrt` with `√0 = 0`), and `calculateRSquared` returns exactly `1`
provided the observed values are not all equal (`ssTotal ≠ 0`); when
`ssTotal = 0` it returns `0` instead. -/
theorem perfect_prediction (msqrt : ℚ → ℚ) (hsqrt0 : msqrt 0 = 0)
    (observed : List ℚ) (hne : observed ≠ []) :
    calculateRMSE msqrt observed observed = 0 ∧
    ((observed.map fun v => (v - observed.sum / observed.length) ^ 2).sum ≠ 0 →
      calculateRSquared observed observed = 1) ∧
    ((observed.map fun v => (v - observed.sum / observed.length) ^ 2).sum = 0 →
      calculateRSquared observed observed = 0) := by
  have hlen : ¬ observed.length = 0 := by
    simpa [List.length_eq_zero] using hne
  have hres :
      ((List.range observed.length).map fun i =>
        (observed.getD i 0 - observed.getD i 0) ^ 2).sum = 0 := by
    simp
  refine ⟨?_, ?_, ?_⟩
  · unfold calculateRMSE
    rw [if_neg hlen, hres, zero_div, hsqrt0]
  · intro hss
    unfold calculateRSquared
    rw [if_neg hlen]
    simp only []
    rw [if_neg hss, hres, zero_div, sub_zero]
  · intro hss
    unfold calculateRSquared
    rw [if_neg hlen]
    simp only []
    rw [if_pos hss]

/-- C4 witness: on `observed = predicted = [0, 1]` the hypotheses hold and
the amended conclusions evaluate. -/
theorem perfect_prediction_witness :
    calculateRMSE (fun q => q) [0, 1] [0, 1] = 0 ∧
    calculateRSquared [0, 1] [0, 1] = 1 :=
  ⟨(perfect_prediction (fun q => q) rfl [0, 1] (by decide)).1,
    (perfect_prediction (fun q => q) rfl [0, 1] (by decide)).2.1 (by decide)⟩

/-- One unfolding step of `trapezoidalIntegration` on two or more points. -/
theorem trapezoidalIntegration_cons_cons (a b : SpectralDataPoint)
    (rest : List SpectralDataPoint) :
    trapezoidalIntegration (a :: b :: rest) =
      (b.wavelength - a.wavelength) * ((b.intensity + a.intensity) / 2) +
        trapezoidalIntegration (b :: rest) := rfl

/-- Dividing every intensity by `c` divides the trapezoidal integral by `c`. -/
theorem trapezoidalIntegration_map_div (c : ℚ) :
    ∀ l : List SpectralDataPoint,
      trapezoidalIntegration (l.map fun d => ⟨d.wavelength, d.intensity / c⟩) =
        trapezoidalIntegration l / c
  | [] => by simp [trapezoidalIntegration]
  | [a] => by simp [trapezoidalIntegration]
  | a :: b :: rest => by
      have ih := trapezoidalIntegration_map_div c (b :: rest)
      simp only [List.map_cons] at ih ⊢
      rw [trapezoidalIntegration_cons_cons, trapezoidalIntegration_cons_cons, ih]
      ring

/-- C5: `area` normalization of a spectrum with nonzero trapezoidal integral
produces a spectrum whose trapezoidal integral is exactly `1`; `max`
normalization with zero maximum intensity and `area` normalization with zero
area both return the input unchanged. -/
theorem normalization_invariants (data : List SpectralDataPoint) :
    (trapezoidalIntegration data ≠ 0 →
      trapezoidalIntegration (normalizeSpectrum data NormMethod.area) = 1) ∧
    (listMax (data.map (·.intensity)) = 0 →
      normalizeSpectrum data NormMethod.max = data) ∧
    (trapezoidalIntegration data = 0 →
      normalizeSpectrum data NormMethod.area = data) := by
  refine ⟨?_, ?_, ?_⟩
  · intro h
    have hlen : ¬ data.length = 0 := by
      intro h0
      exact h (by rw [List.length_eq_zero.mp h0]; rfl)
    unfold normalizeSpectrum
    rw [if_neg hlen]
    show (if trapezoidalIntegration data = 0 then data
      else data.map fun d => ⟨d.wavelength, d.intensity / trapezoidalIntegration data⟩) ∈
        {l | trapezoidalIntegration l = 1}
    rw [if_neg h]
    show trapezoidalIntegration _ = 1
    rw [trapezoidalIntegration_map_div, div_self h]
  · intro h
    unfold normalizeSpectrum
    by_cases hlen : data.length = 0
    · rw [if_pos hlen]
    · rw [if_neg hlen]
      exact if_pos h
  · intro h
    unfold normalizeSpectrum
    by_cases hlen : data.length = 0
    · rw [if_pos hlen]
    · rw [if_neg hlen]
      exact if_pos h

/-- C5 witness: concrete instances of the three conjuncts. -/
theorem normalization_invariants_witness :
    trapezoidalIntegration (normalizeSpectrum [⟨0, 1⟩, ⟨1, 1⟩] NormMethod.area) = 1 ∧
    normalizeSpectrum [⟨0, 0⟩] NormMethod.max = [⟨0, 0⟩] ∧
    normalizeSpectrum [⟨0, 0⟩] NormMethod.area = [⟨0, 0⟩] :=
  ⟨(normalization_invariants [⟨0, 1⟩, ⟨1, 1⟩]).1 (by decide),
    (normalization_invariants [⟨0, 0⟩]).2.1 (by decide),
    (normalization_invariants [⟨0, 0⟩]).2.2 (by decide)⟩

/-- The population variance is a sum of squares over a nonnegative count, so
it is nonnegative. -/
theorem varianceIntensity_nonneg (data : List SpectralDataPoint) :
    0 ≤ varianceIntensity data := by
  unfold varianceIntensity
  apply div_nonneg
  · apply List.sum_nonneg
    intro x hx
    simp only [List.mem_map] at hx
    obtain ⟨v, _, rfl⟩ := hx
    positivity
  · exact Nat.cast_nonneg data.length

/-- The exact-arithmetic rendering of the z-score test: for `v > 0`,
`0 ≤ t ∧ a² ≤ t²·v` holds in `ℚ` iff `|a| ≤ t·√v` holds in `ℝ`. -/
theorem sq_test_iff_abs_le_sqrt (a t v : ℚ) (hv : 0 < v) :
    (0 ≤ t ∧ a ^ 2 ≤ t ^ 2 * v) ↔ |(a : ℝ)| ≤ (t : ℝ) * Real.sqrt (v : ℝ) := by
  have hvR : (0 : ℝ) < (v : ℝ) := by exact_mod_cast hv
  have hs : (0 : ℝ) < Real.sqrt v := Real.sqrt_pos.mpr hvR
  have hs2 : Real.sqrt (v : ℝ) ^ 2 = (v : ℝ) := Real.sq_sqrt hvR.le
  constructor
  · rintro ⟨ht, hle⟩
    have htR : (0 : ℝ) ≤ (t : ℝ) := by exact_mod_cast ht
    have hleR : (a : ℝ) ^ 2 ≤ (t : ℝ) ^ 2 * (v : ℝ) := by exact_mod_cast hle
    rw [← Real.sqrt_sq_eq_abs]
    have hform : (t : ℝ) * Real.sqrt v = Real.sqrt ((t : ℝ) ^ 2 * v) := by
      rw [Real.sqrt_mul (sq_nonneg _), Real.sqrt_sq htR]
    rw [hform]
    exact Real.sqrt_le_sqrt hleR
  · intro h
    have htsv : (0 : ℝ) ≤ (t : ℝ) * Real.sqrt v := le_trans (abs_nonneg _) h
    have htR : (0 : ℝ) ≤ (t : ℝ) := (mul_nonneg_iff_of_pos_right hs).mp htsv
    refine ⟨by exact_mod_cast htR, ?_⟩
    have hsq := pow_le_pow_left₀ (abs_nonneg (a : ℝ)) h 2
    rw [sq_abs, mul_pow, hs2] at hsq
    exact_mod_cast hsq

/-- C6: for every non-empty spectrum, `removeOutliers` returns a sublist of
the input (a subset of the input points in order, so never more points than
the input); when the population variance — equivalently the population
standard deviation — is zero the input is returned unchanged; and otherwise
the output is exactly the input filtered by the z-score test, whose
`ℚ`-embedded form is equivalent to `|intensity - mean| ≤ threshold · √variance`
over the reals. -/
theorem removeOutliers_spec (data : List SpectralDataPoint) (t : ℚ)
    (hne : data ≠ []) :
    (removeOutliers data t).Sublist data ∧
    (removeOutliers data t).length ≤ data.length ∧
    (varianceIntensity data = 0 → removeOutliers data t = data) ∧
    (varianceIntensity data ≠ 0 →
      removeOutliers data t =
        data.filter (fun d =>
          decide (0 ≤ t ∧
            (d.intensity - meanIntensity data) ^ 2 ≤ t ^ 2 * varianceIntensity data)) ∧
      ∀ a : ℚ,
        ((0 ≤ t ∧ (a - meanIntensity data) ^ 2 ≤ t ^ 2 * varianceIntensity data) ↔
          |(a : ℝ) - (meanIntensity data : ℝ)| ≤
            (t : ℝ) * Real.sqrt (varianceIntensity data : ℝ))) := by
  have hlen : ¬ data.length = 0 := by
    simpa [List.length_eq_zero] using hne
  have hsplit :
      removeOutliers data t =
        if varianceIntensity data = 0 then data
        else data.filter (fun d =>
          decide (0 ≤ t ∧
            (d.intensity - meanIntensity data) ^ 2 ≤ t ^ 2 * varianceIntensity data)) := by
    unfold removeOutliers
    rw [if_neg hlen]
  refine ⟨?_, ?_, ?_, ?_⟩
  · rw [hsplit]
    by_cases hv : varianceIntensity data = 0
    · rw [if_pos hv]
    · rw [if_neg hv]
      exact List.filter_sublist data
  · rw [hsplit]
    by_cases hv : varianceIntensity data = 0
    · rw [if_pos hv]
    · rw [if_neg hv]
      exact (List.filter_sublist data).length_le
  · intro hv
    rw [hsplit, if_pos hv]
  · intro hv
    refine ⟨by rw [hsplit, if_neg hv], ?_⟩
    intro a
    have hpos : 0 < varianceIntensity data :=
      lt_of_le_of_ne (varianceIntensity_nonneg data) (Ne.symm hv)
    have := sq_test_iff_abs_le_sqrt (a - meanIntensity data) t (varianceIntensity data) hpos
    rw [this]
    rw [Rat.cast_sub]

/-- C6 witness: the spectrum `[(0,0),(1,2)]` has mean `1` and variance `1`,
so both the sublist fact and the filter characterization instantiate. -/
theorem removeOutliers_spec_witness :
    (removeOutliers [⟨0, 0⟩, ⟨1, 2⟩] 3).Sublist [⟨0, 0⟩, ⟨1, 2⟩] ∧
    removeOutliers [⟨0, 0⟩, ⟨1, 2⟩] 3 =
      List.filter (fun d =>
        decide (0 ≤ (3 : ℚ) ∧
          (d.intensity - meanIntensity [⟨0, 0⟩, ⟨1, 2⟩]) ^ 2 ≤
            (3 : ℚ) ^ 2 * varianceIntensity [⟨0, 0⟩, ⟨1, 2⟩]))
        [⟨0, 0⟩, ⟨1, 2⟩] :=
  ⟨(removeOutliers_spec [⟨0, 0⟩, ⟨1, 2⟩] 3 (by decide)).1,
    ((removeOutliers_spec [⟨0, 0⟩, ⟨1, 2⟩] 3 (by decide)).2.2.2 (by decide)).1⟩

/-- The left half-max walk never moves right. -/
theorem walkLeft_le (data : List SpectralDataPoint) (h : ℚ) :
    ∀ i, walkLeft data h i ≤ i
  | 0 => le_refl 0
  | i + 1 => by
      unfold walkLeft
      split
      · exact le_trans (walkLeft_le data h i) (Nat.le_succ i)
      · exact le_refl (i + 1)

/-- The right half-max walk never moves left. -/
theorem walkRightAux_ge (data : List SpectralDataPoint) (h : ℚ) :
    ∀ fuel i, i ≤ walkRightAux data h fuel i
  | 0, i => le_refl i
  | fuel + 1, i => by
      unfold walkRightAux
      split
      · exact le_trans (Nat.le_succ i) (walkRightAux_ge data h fuel (i + 1))
      · exact le_refl i

/-- The right half-max walk never leaves the array: it stops at or before the
last index. -/
theorem walkRightAux_le (data : List SpectralDataPoint) (h : ℚ) :
    ∀ fuel i, i ≤ data.length - 1 → walkRightAux data h fuel i ≤ data.length - 1
  | 0, i, hi => hi
  | fuel + 1, i, hi => by
      unfold walkRightAux
      split
      · next hcond => exact walkRightAux_le data h fuel (i + 1) (by omega)
      · exact hi

/-- Walk `walkRight` never moves left. -/
theorem walkRight_ge (data : List SpectralDataPoint) (h : ℚ) (i : ℕ) :
    i ≤ walkRight data h i :=
  walkRightAux_ge data h (data.length - i) i

/-- Walk `walkRight` stops at or before the last index. -/
theorem walkRight_le (data : List SpectralDataPoint) (h : ℚ) (i : ℕ)
    (hi : i ≤ data.length - 1) : walkRight data h i ≤ data.length - 1 :=
  walkRightAux_le data h (data.length - i) i hi

/-- Read `getD` at an in-bounds index is `get`. -/
theorem getD_eq_get {α : Type} (l : List α) (d : α) (i : ℕ) (h : i < l.length) :
    l.getD i d = l.get ⟨i, h⟩ := by
  simp [List.getD_eq_getElem?_getD, List.getElem?_eq_getElem h, List.get_eq_getElem]

/-- An in-bounds `getD` read is a member of the list. -/
theorem getD_mem (l : List SpectralDataPoint) (i : ℕ) (h : i < l.length) :
    l.getD i dfltPoint ∈ l := by
  rw [getD_eq_get l dfltPoint i h]
  exact l.get_mem i h

/-- In a spectrum sorted (non-strictly) by wavelength, wavelengths are
monotone in the index. -/
theorem wavelengthAt_mono (data : List SpectralDataPoint)
    (hs : data.Pairwise fun a b => a.wavelength ≤ b.wavelength)
    {i j : ℕ} (hij : i ≤ j) (hj : j < data.length) :
    wavelengthAt data i ≤ wavelengthAt data j := by
  rcases Nat.lt_or_ge i j with hlt | hge
  · have hi : i < data.length := lt_trans hlt hj
    have hrel := List.pairwise_iff_get.mp hs ⟨i, hi⟩ ⟨j, hj⟩ (Fin.mk_lt_mk.mpr hlt)
    unfold wavelengthAt
    rw [getD_eq_get data dfltPoint i hi, getD_eq_get data dfltPoint j hj]
    exact hrel
  · have : i = j := le_antisymm hij hge
    subst this
    exact le_refl _

/-- Folding `min` only lowers the accumulator. -/
theorem foldl_min_le_init (l : List ℚ) (acc : ℚ) : l.foldl min acc ≤ acc := by
  induction l generalizing acc with
  | nil => exact le_refl acc
  | cons x xs ih => exact le_trans (ih (min acc x)) (min_le_left acc x)

/-- A `min`-fold is bounded by every list member. -/
theorem foldl_min_le_mem (l : List ℚ) (acc a : ℚ) (ha : a ∈ l) :
    l.foldl min acc ≤ a := by
  induction l generalizing acc with
  | nil => cases ha
  | cons x xs ih =>
      rcases List.mem_cons.mp ha with rfl | ha2
      · exact le_trans (foldl_min_le_init xs (min acc a)) (min_le_right acc a)
      · exact ih (min acc x) ha2

/-- Value `listMin` of a list is a lower bound of it. -/
theorem listMin_le_mem (l : List ℚ) (a : ℚ) (ha : a ∈ l) : listMin l ≤ a := by
  cases l with
  | nil => cases ha
  | cons x xs =>
      rcases List.mem_cons.mp ha with rfl | ha2
      · exact foldl_min_le_init xs a
      · exact foldl_min_le_mem xs x a ha2

/-- Folding `max` only raises the accumulator. -/
theorem foldl_max_ge_init (l : List ℚ) (acc : ℚ) : acc ≤ l.foldl max acc := by
  induction l generalizing acc with
  | nil => exact le_refl acc
  | cons x xs ih => exact le_trans (le_max_left acc x) (ih (max acc x))

/-- A `max`-fold bounds every list member. -/
theorem foldl_max_ge_mem (l : List ℚ) (acc a : ℚ) (ha : a ∈ l) :
    a ≤ l.foldl max acc := by
  induction l generalizing acc with
  | nil => cases ha
  | cons x xs ih =>
      rcases List.mem_cons.mp ha with rfl | ha2
      · exact le_trans (le_max_right acc a) (foldl_max_ge_init xs (max acc a))
      · exact ih (max acc x) ha2

/-- Value `listMax` of a list is an upper bound of it. -/
theorem listMax_ge_mem (l : List ℚ) (a : ℚ) (ha : a ∈ l) : a ≤ listMax l := by
  cases l with
  | nil => cases ha
  | cons x xs =>
      rcases List.mem_cons.mp ha with rfl | ha2
      · exact foldl_max_ge_init xs a
      · exact foldl_max_ge_mem xs x a ha2

/-- C7: on a spectrum sorted ascending by wavelength, every peak returned by
`detectPeaks` has `fwhm ≥ 0` (the right half-max boundary cannot lie left of
the left one) and a position inside
`[min(wavelength), max(wavelength)]` of the input. -/
theorem detectPeaks_invariants (data : List SpectralDataPoint) (pr mh : ℚ)
    (hs : data.Pairwise fun a b => a.wavelength ≤ b.wavelength) :
    ∀ p ∈ detectPeaks data pr mh,
      0 ≤ p.fwhm ∧
      listMin (data.map (·.wavelength)) ≤ p.position ∧
      p.position ≤ listMax (data.map (·.wavelength)) := by
  intro p hp
  unfold detectPeaks at hp
  rw [List.mem_filter] at hp
  obtain ⟨hp, _⟩ := hp
  rw [List.mem_map] at hp
  obtain ⟨i, hi, rfl⟩ := hp
  rw [List.mem_filter] at hi
  obtain ⟨hi, _⟩ := hi
  unfold interiorIndices at hi
  rw [List.mem_filter] at hi
  obtain ⟨_, hcond⟩ := hi
  have hrange : 1 ≤ i ∧ i + 1 < data.length := of_decide_eq_true hcond
  have hL : walkLeft data (intensityAt data i / 2) i ≤ i :=
    walkLeft_le data (intensityAt data i / 2) i
  have hR : i ≤ walkRight data (intensityAt data i / 2) i :=
    walkRight_ge data (intensityAt data i / 2) i
  have hRle : walkRight data (intensityAt data i / 2) i ≤ data.length - 1 :=
    walkRight_le data (intensityAt data i / 2) i (by omega)
  have hRlt : walkRight data (intensityAt data i / 2) i < data.length := by omega
  have hpos : (mkPeak data i).position = wavelengthAt data i := rfl
  refine ⟨?_, ?_, ?_⟩
  · show 0 ≤ (mkPeak data i).fwhm
    have hfwhm : (mkPeak data i).fwhm =
        wavelengthAt data (walkRight data (intensityAt data i / 2) i) -
          wavelengthAt data (walkLeft data (intensityAt data i / 2) i) := rfl
    rw [hfwhm, sub_nonneg]
    exact wavelengthAt_mono data hs (le_trans hL hR) hRlt
  · rw [hpos]
    apply listMin_le_mem
    exact List.mem_map.mpr ⟨data.getD i dfltPoint, getD_mem data i (by omega), rfl⟩
  · rw [hpos]
    apply listMax_ge_mem
    exact List.mem_map.mpr ⟨data.getD i dfltPoint, getD_mem data i (by omega), rfl⟩

/-- C7 witness: the scenario spectrum is sorted and yields the concrete peak,
whose invariants then instantiate. -/
theorem detectPeaks_invariants_witness :
    0 ≤ (Peak.mk 504 (9/10) 4 (16/5) (3/5)).fwhm ∧
    listMin (demoSpectrum.map (·.wavelength)) ≤
      (Peak.mk 504 (9/10) 4 (16/5) (3/5)).position ∧
    (Peak.mk 504 (9/10) 4 (16/5) (3/5)).position ≤
      listMax (demoSpectrum.map (·.wavelength)) :=
  detectPeaks_invariants demoSpectrum (1/10) (1/20) (by decide)
    (Peak.mk 504 (9/10) 4 (16/5) (3/5)) (by decide)

/-- C8: the `voigt` branch of the analysis-page dispatch computes exactly
`fitGaussian data peaks` — requesting the Voigt model yields data identical
to the Gaussian model, for every spectrum and peak list. -/
theorem voigt_is_gaussian (mexp : ℚ → ℚ) (data : List SpectralDataPoint)
    (peaks : List Peak) :
    fitCurve mexp FitModel.voigt data peaks = fitGaussian mexp data peaks ∧
    fitCurve mexp FitModel.voigt data peaks = fitCurve mexp FitModel.gaussian data peaks :=
  ⟨rfl, rfl⟩

/-- C9: at zero width both peak-shape models return `0` — `gaussian` with
`sigma = 0` and `lorentzian` with `halfWidth = 0` take their guard branch, so
no division by zero is ever evaluated. -/
theorem zero_width_models (mexp : ℚ → ℚ) (x amplitude center : ℚ) :
    gaussian mexp x amplitude center 0 = 0 ∧ lorentzian x amplitude center 0 = 0 :=
  ⟨rfl, rfl⟩

/-- C10 counterexample: the two modules' `polyfit` disagree already at
`x = [0,1]`, `y = [0,1]`, degree 1 — the `part_002` version solves the normal
equations and returns the interpolating line `[0, 1]`, while the
`scientific.ts` version returns `[mean y, 0] = [1/2, 0]`.  The modules are
therefore not extensionally equal. -/
theorem alt_polyfit_differs :
    Alt.polyfit [0, 1] [0, 1] 1 = [1/2, 0] ∧
    polyfit [0, 1] [0, 1] 1 = [0, 1] ∧
    Alt.polyfit [0, 1] [0, 1] 1 ≠ polyfit [0, 1] [0, 1] 1 := by
  refine ⟨by decide, ?_, by decide⟩
  decide

/-- C10 (amended): the two scientific modules are *not* extensionally equal:
`polyfit` (and with it `polynomialBaselineCorrection`) differs at
`x = [0,1], y = [0,1], degree 1`.  Their `detectPeaks` functions do agree on
every spectrum in which no point's intensity is exactly `min_height` — the
only textual difference between them is the strict-versus-non-strict
min-height comparison. -/
theorem modules_relation :
    (∀ (data : List SpectralDataPoint) (pr mh : ℚ),
        (∀ d ∈ data, d.intensity ≠ mh) →
        Alt.detectPeaks data pr mh = detectPeaks data pr mh) ∧
    Alt.polyfit [0, 1] [0, 1] 1 ≠ polyfit [0, 1] [0, 1] 1 := by
  constructor
  · intro data pr mh hne
    unfold Alt.detectPeaks detectPeaks
    have hfilter : (interiorIndices data.length).filter (Alt.isCandidate data mh) =
        (interiorIndices data.length).filter (isCandidate data mh) := by
      apply List.filter_congr
      intro i hi
      have hlt : i < data.length := by
        unfold interiorIndices at hi
        rw [List.mem_filter] at hi
        exact List.mem_range.mp hi.1
      have hne2 : intensityAt data i ≠ mh := hne _ (getD_mem data i hlt)
      unfold Alt.isCandidate isCandidate
      apply decide_eq_decide.mpr
      constructor
      · rintro ⟨h1, h2, h3⟩
        exact ⟨h1, h2, le_of_lt h3⟩
      · rintro ⟨h1, h2, h3⟩
        exact ⟨h1, h2, lt_of_le_of_ne h3 (Ne.symm hne2)⟩
    rw [hfilter]
  · decide

/-- C10 witness: the conditional agreement instantiated on the scenario
spectrum, none of whose intensities equals `min_height = 0.05`. -/
theorem modules_relation_witness :
    Alt.detectPeaks demoSpectrum (1/10) (1/20) = detectPeaks demoSpectrum (1/10) (1/20) :=
  modules_relation.1 demoSpectrum (1/10) (1/20) (by decide)

end PL
